import Mathlib

/-
Verification of the image-sonification codec: a shallow embedding of the
sonification service (sample codec, WAV container framing, format dispatch,
full-fidelity / compressed / legacy decode paths) together with theorems
settling the specification's claims about it.

Byte buffers are modelled as `List Nat` (each element a byte value 0..255 where
the source guarantees it) and 16-bit PCM sample streams as `List Int`.
-/

namespace Sonification

/-- Audio sample rate used by the WAV container (`SAMPLE_RATE` in the source). -/
def SAMPLE_RATE : Nat := 44100

/-- Bits per PCM sample (`BITS_PER_SAMPLE` in the source). -/
def BITS_PER_SAMPLE : Nat := 16

/-- Number of audio channels (`NUM_CHANNELS` in the source). -/
def NUM_CHANNELS : Nat := 1

/-- Magic tag identifying full-quality payloads, spelling "FULL" (`MAGIC_FULL`). -/
def MAGIC_FULL : Nat := 0x46554C4C

/-- Magic tag identifying JPEG payloads, spelling "JPEG" (`MAGIC_JPEG`). -/
def MAGIC_JPEG : Nat := 0x4A504547

/-- Encodes a byte as a 16-bit PCM sample (`byteToSample`): `(byte - 128) * 256`. -/
def byteToSample (byte : Nat) : Int := ((byte : Int) - 128) * 256

/-- Decodes a 16-bit PCM sample to a byte (`sampleToByte`):
`Math.max(0, Math.min(255, Math.round(sample / 256) + 128))`.  JavaScript
`Math.round` rounds halves toward positive infinity, so on an integer sample
`Math.round(sample / 256)` is the floor of `(sample + 128) / 256`; with the
positive divisor 256, integer Euclidean division (`/` on `Int`) is exactly
that floor. -/
def sampleToByte (sample : Int) : Int :=
  max 0 (min 255 ((sample + 128) / 256 + 128))

/-- Value of `sampleToByte` as stored into a `Uint8Array` or
`Uint8ClampedArray` (the clamped result already lies in `[0, 255]`). -/
def sampleToByteN (sample : Int) : Nat := (sampleToByte sample).toNat

/-- Little-endian byte quadruple of a 32-bit value (`int32ToBytes`). -/
def int32ToBytes (value : Nat) : List Nat :=
  [value % 256, value / 256 % 256, value / 65536 % 256, value / 16777216 % 256]

/-- Little-endian byte pair of a 16-bit value (`int16ToBytes`). -/
def int16ToBytes (value : Nat) : List Nat :=
  [value % 256, value / 256 % 256]

/-- Reads a little-endian unsigned 32-bit value (`bytesToInt32`; also models
`DataView.getUint32(_, true)` in the chunk scan).  An out-of-range index
contributes 0, exactly as the source's bitwise-or coerces `undefined` to 0. -/
def bytesToInt32 (bytes : List Nat) (offset : Nat) : Nat :=
  bytes.getD offset 0 + 256 * bytes.getD (offset + 1) 0 +
    65536 * bytes.getD (offset + 2) 0 + 16777216 * bytes.getD (offset + 3) 0

/-- The 44-byte WAV header (`createWavHeader`). -/
def createWavHeader (dataSize : Nat) : List Nat :=
  [0x52, 0x49, 0x46, 0x46] ++ int32ToBytes (36 + dataSize) ++
  [0x57, 0x41, 0x56, 0x45] ++ [0x66, 0x6d, 0x74, 0x20] ++
  int32ToBytes 16 ++ int16ToBytes 1 ++ int16ToBytes NUM_CHANNELS ++
  int32ToBytes SAMPLE_RATE ++
  int32ToBytes (SAMPLE_RATE * NUM_CHANNELS * (BITS_PER_SAMPLE / 8)) ++
  int16ToBytes (NUM_CHANNELS * (BITS_PER_SAMPLE / 8)) ++
  int16ToBytes BITS_PER_SAMPLE ++
  [0x64, 0x61, 0x74, 0x61] ++ int32ToBytes dataSize

/-- Little-endian byte pair of one `Int16Array` element holding `sample`
(the typed-array store wraps modulo 2^16). -/
def int16LEBytes (sample : Int) : List Nat :=
  [(sample % 65536).toNat % 256, (sample % 65536).toNat / 256]

/-- Byte image of an `Int16Array`'s backing buffer (`new Uint8Array(audioData.buffer)`;
little-endian platform layout). -/
def samplesToBytes : List Int → List Nat
  | [] => []
  | s :: rest => int16LEBytes s ++ samplesToBytes rest

/-- Interprets a little-endian byte pair as a signed 16-bit integer. -/
def leBytesToInt16 (b0 b1 : Nat) : Int :=
  if b0 + 256 * b1 < 32768 then ((b0 + 256 * b1 : Nat) : Int)
  else ((b0 + 256 * b1 : Nat) : Int) - 65536

/-- Reads a byte buffer as an `Int16Array` (`new Int16Array(arrayBuffer)`),
pairing bytes little-endian.  The source only reaches this on buffers of even
length (odd lengths raise a `RangeError`, modelled in the decoder below). -/
def bytesToSamples : List Nat → List Int
  | b0 :: b1 :: rest => leBytesToInt16 b0 b1 :: bytesToSamples rest
  | _ => []

/-- Encodes bytes to WAV audio data (`bytesToWav`): one 16-bit sample per byte
of `headerBytes ++ data`, prefixed by the 44-byte WAV header whose declared
data size is `(headerBytes.length + data.length) * 2`. -/
def bytesToWav (data headerBytes : List Nat) : List Nat :=
  let audioData := (headerBytes ++ data).map byteToSample
  createWavHeader ((headerBytes.length + data.length) * 2) ++ samplesToBytes audioData

/-- The "data" chunk tag. -/
def dataTag : List Nat := [0x64, 0x61, 0x74, 0x61]

/-- The outer "RIFF" container tag. -/
def riffTag : List Nat := [0x52, 0x49, 0x46, 0x46]

/-- Four chunk-tag bytes at `offset` (every use is in bounds, guarded by the
scan condition `offset + 8 < buf.length`). -/
def chunkIdAt (buf : List Nat) (offset : Nat) : List Nat :=
  [buf.getD offset 0, buf.getD (offset + 1) 0, buf.getD (offset + 2) 0,
    buf.getD (offset + 3) 0]

/-- The chunk-scan loop of `audioToImage`: starting at offset 12, while
`offset < byteLength - 8`, stop just past a "data" tag, otherwise skip
`8 + chunkSize`.  Fuel drives the recursion; since each iteration advances the
offset by at least 8 and the loop only continues while `offset + 8 < buf.length`,
a fuel of `buf.length` can never be exhausted before the guard fails, so the
fuelled function coincides with the source's loop. -/
def findDataOffsetAux (buf : List Nat) : Nat → Nat → Nat
  | 0, offset => offset
  | fuel + 1, offset =>
    if offset + 8 < buf.length then
      if chunkIdAt buf offset = dataTag then offset + 8
      else findDataOffsetAux buf fuel (offset + 8 + bytesToInt32 buf (offset + 4))
    else offset

/-- Offset of the first byte after the "data" chunk header, or wherever the
scan stopped when no "data" chunk occurs (the source raises no error then). -/
def findDataOffset (buf : List Nat) : Nat := findDataOffsetAux buf buf.length 12

deriving instance DecidableEq for Except

/-- Failure modes of `audioToImage`: the thrown `Error`s of the source, plus
`rangeError` for the JavaScript `RangeError` raised by out-of-bounds `DataView`
reads, a negative typed-array length, or an odd-length `Int16Array` buffer. -/
inductive DecodeError where
  | rangeError
  | malformedContainer
  | sizeMismatch
  | invalidDimensions
  | decodeFailure
deriving DecidableEq

/-- Codec-level result of `audioToImage`: either the JPEG byte stream handed to
the raster layer, or raw pixel bytes with the dimensions reported alongside. -/
inductive DecodedImage where
  | jpeg (bytes : List Nat)
  | raw (width height : Nat) (bytes : List Nat)
deriving DecidableEq

/-- Modelled from the spec: the source's `compressData` / `decompressData` wrap
the platform `CompressionStream` / `DecompressionStream` ("deflate") primitives,
whose code is not part of this repository.  Following spec §4.3, a compressor is
an arbitrary reversible general-purpose byte-stream transformation;
`decompress` is fallible because decompressing corrupted data may reject its
input (a thrown stream error, `decodeFailure` below). -/
structure Compressor where
  compress : List Nat → List Nat
  decompress : List Nat → Option (List Nat)

/-- The identity compressor: a trivially reversible compression scheme used to
instantiate concrete witnesses. -/
def idCompressor : Compressor := ⟨fun bytes => bytes, fun bytes => some bytes⟩

/-- Byte obtained from sample `i` exactly as the source stores
`sampleToByte(samples[i])` into a byte array: an out-of-range typed-array read
yields `undefined`, `sampleToByte` then produces `NaN`, and storing `NaN` into
a `Uint8Array`/`Uint8ClampedArray` yields the byte 0. -/
def readByte (samples : List Int) (i : Nat) : Nat :=
  match samples.get? i with
  | some s => sampleToByteN s
  | none => 0

/-- The first `n` decoded bytes of the sample stream (the `headerBytes` /
`magicBytes` buffers built at the start of each decode path). -/
def headerBytesList (samples : List Int) (n : Nat) : List Nat :=
  (List.range n).map (readByte samples)

/-- Magic number read from the first 4 samples of the stream. -/
def readMagic (samples : List Int) : Nat :=
  bytesToInt32 (headerBytesList samples 4) 0

/-- The JPEG decode path of `audioToImage`: 8-byte header, then exactly
`jpegLength` payload bytes mapped back through the sample codec.  Probing the
blob's dimensions happens in the external raster layer. -/
def decodeJpeg (samples : List Int) : Except DecodeError DecodedImage :=
  let headerBytes := headerBytesList samples 8
  let jpegLength := bytesToInt32 headerBytes 4
  Except.ok (DecodedImage.jpeg ((List.range jpegLength).map fun i => readByte samples (8 + i)))

/-- The full-quality decode path of `audioToImage`: 16-byte header
(`magic, width, height, originalSize`), all remaining samples mapped to bytes,
decompressed, and checked against the declared original size.  When
`samples.length < 16` the source computes a negative `compressedLength` and
`new Uint8Array` raises a `RangeError`. -/
def decodeFull (C : Compressor) (samples : List Int) : Except DecodeError DecodedImage :=
  let headerBytes := headerBytesList samples 16
  let width := bytesToInt32 headerBytes 4
  let height := bytesToInt32 headerBytes 8
  let originalSize := bytesToInt32 headerBytes 12
  if samples.length < 16 then Except.error DecodeError.rangeError
  else
    let compressedData := (List.range (samples.length - 16)).map fun i => readByte samples (16 + i)
    match C.decompress compressedData with
    | none => Except.error DecodeError.decodeFailure
    | some rawPixelData =>
      if rawPixelData.length ≠ originalSize then Except.error DecodeError.sizeMismatch
      else Except.ok (DecodedImage.raw width height rawPixelData)

/-- The legacy decode path (`handleLegacyFormat`): 12-byte header
(`width, height, channels`), dimension validation, then exactly
`width * height * channels` pixel bytes mapped directly from the samples.
The source's `width <= 0` test collapses to `width = 0` because
`bytesToInt32` applies `>>> 0` and so never yields a negative value. -/
def handleLegacyFormat (samples : List Int) : Except DecodeError DecodedImage :=
  let legacyHeader := headerBytesList samples 12
  let width := bytesToInt32 legacyHeader 0
  let height := bytesToInt32 legacyHeader 4
  let channels := bytesToInt32 legacyHeader 8
  if width = 0 ∨ 32768 < width ∨ height = 0 ∨ 32768 < height then
    Except.error DecodeError.invalidDimensions
  else
    let expectedSize := width * height * channels
    Except.ok (DecodedImage.raw width height
      ((List.range expectedSize).map fun i => readByte samples (12 + i)))

/-- Format dispatch at the end of `audioToImage`: JPEG magic first, then FULL,
otherwise the legacy handler. -/
def dispatchSamples (C : Compressor) (samples : List Int) : Except DecodeError DecodedImage :=
  let magic := readMagic samples
  if magic = MAGIC_JPEG then decodeJpeg samples
  else if magic = MAGIC_FULL then decodeFull C samples
  else handleLegacyFormat samples

/-- Reconstructs an image from a WAV byte stream (`audioToImage`): verify the
leading "RIFF" tag (reading the first four bytes raises a `RangeError` on a
shorter buffer), locate the sample region via the chunk scan, reinterpret the
remaining bytes as an `Int16Array` (odd lengths raise a `RangeError`), and
dispatch on the decoded magic number. -/
def audioToImage (C : Compressor) (buf : List Nat) : Except DecodeError DecodedImage :=
  if buf.length < 4 then Except.error DecodeError.rangeError
  else if buf.take 4 ≠ riffTag then Except.error DecodeError.malformedContainer
  else
    let tail := buf.drop (findDataOffset buf)
    if tail.length % 2 ≠ 0 then Except.error DecodeError.rangeError
    else dispatchSamples C (bytesToSamples tail)

/-- The sample stream a decode call extracts from `buf` before dispatching. -/
def sampleStream (buf : List Nat) : List Int :=
  bytesToSamples (buf.drop (findDataOffset buf))

/-- Result record of `imageToAudio` (the `SonificationResult` of the source,
restricted to the codec-level fields).  `compressionFactor` models the source's
`compressionRatio` field and `duration` the reported duration, both JavaScript
number divisions carried out exactly in `ℚ`. -/
structure SonificationResult where
  wav : List Nat
  sampleRate : Nat
  duration : ℚ
  compressionFactor : ℚ
deriving DecidableEq

/-- Full-quality branch of `imageToAudio`: raw pixel bytes (with their
dimensions, extracted by the external raster layer) are deflate-compressed, a
16-byte header `magic "FULL" | width | height | originalSize` is prepended, and
the whole is framed as WAV.  `originalSize` is the raw pixel byte length. -/
def imageToAudioFull (C : Compressor) (width height : Nat) (rawData : List Nat) :
    SonificationResult :=
  let compressedPixels := C.compress rawData
  let originalSize := rawData.length
  let headerBytes := int32ToBytes MAGIC_FULL ++ int32ToBytes width ++
    int32ToBytes height ++ int32ToBytes originalSize
  let totalSamples := headerBytes.length + compressedPixels.length
  { wav := bytesToWav compressedPixels headerBytes
    sampleRate := SAMPLE_RATE
    duration := (totalSamples : ℚ) / (SAMPLE_RATE : ℚ)
    compressionFactor := (originalSize : ℚ) / (compressedPixels.length : ℚ) }

/-- Compressed branch of `imageToAudio`: the externally produced JPEG bytes are
framed behind an 8-byte header `magic "JPEG" | jpegLength`; `originalSize` is
the input file's byte size. -/
def imageToAudioCompressed (fileSize : Nat) (jpegData : List Nat) : SonificationResult :=
  let headerBytes := int32ToBytes MAGIC_JPEG ++ int32ToBytes jpegData.length
  let totalSamples := headerBytes.length + jpegData.length
  { wav := bytesToWav jpegData headerBytes
    sampleRate := SAMPLE_RATE
    duration := (totalSamples : ℚ) / (SAMPLE_RATE : ℚ)
    compressionFactor := (fileSize : ℚ) / (jpegData.length : ℚ) }

/-- The UI's surfacing of the ratio (`handleProcess` in the component): the
stat is shown only when `result.compressionRatio && result.compressionRatio > 1`,
otherwise it is left `undefined`.  For a positive ratio the truthiness test is
subsumed by the comparison. -/
def surfacedFactor (r : ℚ) : Option ℚ :=
  if 1 < r then some r else none

end Sonification

namespace Sonification

/-! ## Basic properties of the sample codec -/

/-- Decoding inverts encoding on every byte value. -/
theorem sampleToByteN_byteToSample (b : Nat) (hb : b < 256) :
    sampleToByteN (byteToSample b) = b := by
  unfold sampleToByteN sampleToByte byteToSample
  omega

/-- Every encoded byte yields a sample inside the signed 16-bit range. -/
theorem byteToSample_bounds (b : Nat) (hb : b < 256) :
    -32768 ≤ byteToSample b ∧ byteToSample b ≤ 32767 := by
  unfold byteToSample
  omega

end Sonification

namespace Sonification

/-! ## Serialization lemmas -/

/-- Reading back one serialized 16-bit sample recovers it. -/
theorem leBytesToInt16_int16LEBytes (s : Int) (h1 : -32768 ≤ s) (h2 : s ≤ 32767) :
    leBytesToInt16 ((s % 65536).toNat % 256) ((s % 65536).toNat / 256) = s := by
  unfold leBytesToInt16
  split_ifs with h <;> omega

/-- Reinterpreting an `Int16Array`'s byte buffer recovers the samples, provided
every sample lies in the signed 16-bit range. -/
theorem bytesToSamples_samplesToBytes (ss : List Int)
    (h : ∀ s ∈ ss, -32768 ≤ s ∧ s ≤ 32767) :
    bytesToSamples (samplesToBytes ss) = ss := by
  induction ss with
  | nil => rfl
  | cons a t ih =>
    have ha := h a (List.mem_cons_self a t)
    have ht : ∀ s ∈ t, -32768 ≤ s ∧ s ≤ 32767 := fun s hs => h s (List.mem_cons_of_mem a hs)
    show leBytesToInt16 ((a % 65536).toNat % 256) ((a % 65536).toNat / 256) ::
      bytesToSamples (samplesToBytes t) = a :: t
    rw [leBytesToInt16_int16LEBytes a ha.1 ha.2, ih ht]

/-- A sample stream serializes to twice as many bytes. -/
theorem samplesToBytes_length (ss : List Int) :
    (samplesToBytes ss).length = 2 * ss.length := by
  induction ss with
  | nil => rfl
  | cons a t ih =>
    show (int16LEBytes a ++ samplesToBytes t).length = 2 * (a :: t).length
    simp [int16LEBytes, ih]
    omega

/-- An `Int16Array` view holds half as many elements as bytes. -/
theorem bytesToSamples_length : ∀ l : List Nat, (bytesToSamples l).length = l.length / 2
  | [] => rfl
  | [b] => by
    show ([] : List Int).length = [b].length / 2
    norm_num
  | b0 :: b1 :: rest => by
    show (leBytesToInt16 b0 b1 :: bytesToSamples rest).length = (b0 :: b1 :: rest).length / 2
    simp [bytesToSamples_length rest]
    omega

/-- The WAV header always spans 44 bytes. -/
theorem createWavHeader_length (dataSize : Nat) : (createWavHeader dataSize).length = 44 := rfl

end Sonification

namespace Sonification

/-! ## Reading decoded bytes back out of an encoded sample stream -/

/-- Reading byte `i` of an encoded stream recovers the encoded byte. -/
theorem readByte_map (bs : List Nat) (i : Nat) (hi : i < bs.length)
    (hb : ∀ b ∈ bs, b < 256) :
    readByte (bs.map byteToSample) i = bs.getD i 0 := by
  unfold readByte
  rw [List.getD_eq_getElem bs 0 hi]
  have h1 : (bs.map byteToSample).get? i = some (byteToSample bs[i]) := by
    rw [List.get?_eq_getElem?, List.getElem?_map, List.getElem?_eq_getElem hi]
    rfl
  rw [h1]
  exact sampleToByteN_byteToSample _ (hb _ (List.getElem_mem hi))

/-- Reading past the end of the sample stream stores the byte 0. -/
theorem readByte_oob (samples : List Int) (i : Nat) (hi : samples.length ≤ i) :
    readByte samples i = 0 := by
  unfold readByte
  rw [List.get?_eq_none.mpr hi]

/-- Extracting a run of `k` decoded bytes starting at `off` from an encoded
stream recovers the corresponding slice of the original bytes. -/
theorem extract_map (bs : List Nat) (hb : ∀ b ∈ bs, b < 256) (off k : Nat)
    (h : off + k ≤ bs.length) :
    (List.range k).map (fun i => readByte (bs.map byteToSample) (off + i)) =
      (bs.drop off).take k := by
  apply List.ext_getElem
  · simp
    omega
  · intro i h1 h2
    simp only [List.getElem_map, List.getElem_range, List.getElem_take, List.getElem_drop]
    rw [readByte_map bs (off + i) (by simp at h1; omega) hb]
    rw [List.getD_eq_getElem bs 0 (by simp at h1; omega)]

end Sonification

namespace Sonification

/-- The decoded header buffer of an encoded stream is a prefix of the original
bytes. -/
theorem headerBytesList_map (bs : List Nat) (hb : ∀ b ∈ bs, b < 256) (n : Nat)
    (h : n ≤ bs.length) :
    headerBytesList (bs.map byteToSample) n = bs.take n := by
  have h0 := extract_map bs hb 0 n (by omega)
  simp only [List.drop_zero] at h0
  rw [← h0]
  unfold headerBytesList
  simp

/-- Reassembling the four little-endian bytes of a 32-bit value recovers it. -/
theorem int32_roundtrip (v : Nat) (hv : v < 4294967296) :
    v % 256 + 256 * (v / 256 % 256) + 65536 * (v / 65536 % 256) +
      16777216 * (v / 16777216 % 256) = v := by
  omega

/-- Field reads from a decoded 16-byte full-quality header laid out as four
32-bit fields. -/
theorem bytesToInt32_quad (a b c d : Nat) :
    bytesToInt32 (int32ToBytes a ++ int32ToBytes b ++ int32ToBytes c ++ int32ToBytes d) 0 =
      a % 256 + 256 * (a / 256 % 256) + 65536 * (a / 65536 % 256) +
        16777216 * (a / 16777216 % 256) ∧
    bytesToInt32 (int32ToBytes a ++ int32ToBytes b ++ int32ToBytes c ++ int32ToBytes d) 4 =
      b % 256 + 256 * (b / 256 % 256) + 65536 * (b / 65536 % 256) +
        16777216 * (b / 16777216 % 256) ∧
    bytesToInt32 (int32ToBytes a ++ int32ToBytes b ++ int32ToBytes c ++ int32ToBytes d) 8 =
      c % 256 + 256 * (c / 256 % 256) + 65536 * (c / 65536 % 256) +
        16777216 * (c / 16777216 % 256) ∧
    bytesToInt32 (int32ToBytes a ++ int32ToBytes b ++ int32ToBytes c ++ int32ToBytes d) 12 =
      d % 256 + 256 * (d / 256 % 256) + 65536 * (d / 65536 % 256) +
        16777216 * (d / 16777216 % 256) :=
  ⟨rfl, rfl, rfl, rfl⟩

end Sonification

namespace Sonification

/-- Unfolding equation for one iteration of the chunk scan. -/
theorem findDataOffsetAux_step (buf : List Nat) (fuel offset : Nat) :
    findDataOffsetAux buf (fuel + 1) offset =
      if offset + 8 < buf.length then
        if chunkIdAt buf offset = dataTag then offset + 8
        else findDataOffsetAux buf fuel (offset + 8 + bytesToInt32 buf (offset + 4))
      else offset := rfl

/-- Total byte length of an encoded WAV stream. -/
theorem bytesToWav_length (data headerBytes : List Nat) :
    (bytesToWav data headerBytes).length =
      44 + 2 * (headerBytes.length + data.length) := by
  unfold bytesToWav
  rw [List.length_append, createWavHeader_length, samplesToBytes_length, List.length_map,
    List.length_append]

/-- On every stream produced by `bytesToWav` carrying at least one sample, the
chunk scan walks the "fmt " chunk and stops right after the "data" chunk
header, at byte offset 44. -/
theorem findDataOffset_bytesToWav (data headerBytes : List Nat)
    (h : 1 ≤ headerBytes.length + data.length) :
    findDataOffset (bytesToWav data headerBytes) = 44 := by
  have hlen := bytesToWav_length data headerBytes
  have hfmt : chunkIdAt (bytesToWav data headerBytes) 12 = [0x66, 0x6d, 0x74, 0x20] := by
    simp [bytesToWav, createWavHeader, int32ToBytes, int16ToBytes, chunkIdAt,
      SAMPLE_RATE, NUM_CHANNELS, BITS_PER_SAMPLE]
  have hfmtsize : bytesToInt32 (bytesToWav data headerBytes) 16 = 16 := by
    simp [bytesToWav, createWavHeader, int32ToBytes, int16ToBytes, bytesToInt32,
      SAMPLE_RATE, NUM_CHANNELS, BITS_PER_SAMPLE]
  have hdata : chunkIdAt (bytesToWav data headerBytes) 36 = dataTag := by
    simp [bytesToWav, createWavHeader, int32ToBytes, int16ToBytes, chunkIdAt, dataTag,
      SAMPLE_RATE, NUM_CHANNELS, BITS_PER_SAMPLE]
  unfold findDataOffset
  rw [hlen, show 44 + 2 * (headerBytes.length + data.length) =
    (43 + 2 * (headerBytes.length + data.length)) + 1 by omega, findDataOffsetAux_step,
    hlen, if_pos (by omega), hfmt, if_neg (by decide), hfmtsize,
    show (43 + 2 * (headerBytes.length + data.length)) =
      (42 + 2 * (headerBytes.length + data.length)) + 1 by omega, findDataOffsetAux_step,
    hlen, if_pos (by omega), show 12 + 8 + 16 = 36 by norm_num, hdata, if_pos rfl]

end Sonification

namespace Sonification

/-- Decoding an encoded WAV stream reduces to format dispatch over the
round-tripped sample stream: the RIFF check passes, the chunk scan lands at
offset 44, and the remaining bytes reparse as the original `Int16Array`. -/
theorem audioToImage_bytesToWav (C : Compressor) (data headerBytes : List Nat)
    (h : 1 ≤ headerBytes.length + data.length) :
    audioToImage C (bytesToWav data headerBytes) =
      dispatchSamples C
        (bytesToSamples (samplesToBytes ((headerBytes ++ data).map byteToSample))) := by
  have hlen := bytesToWav_length data headerBytes
  have htake : (bytesToWav data headerBytes).take 4 = riffTag := by
    simp [bytesToWav, createWavHeader, int32ToBytes, riffTag]
  have hw : bytesToWav data headerBytes =
      createWavHeader ((headerBytes.length + data.length) * 2) ++
        samplesToBytes ((headerBytes ++ data).map byteToSample) := rfl
  have hdrop : (bytesToWav data headerBytes).drop
      (findDataOffset (bytesToWav data headerBytes)) =
      samplesToBytes ((headerBytes ++ data).map byteToSample) := by
    rw [findDataOffset_bytesToWav data headerBytes h, hw,
      show (44 : Nat) =
        (createWavHeader ((headerBytes.length + data.length) * 2)).length from
        (createWavHeader_length _).symm,
      List.drop_left]
  simp only [audioToImage, hdrop]
  rw [if_neg (by omega), if_neg (by simp [htake]),
    if_neg (by rw [samplesToBytes_length]; omega)]

end Sonification

namespace Sonification

/-- Every byte of a serialized 32-bit field is a byte value. -/
theorem int32ToBytes_lt (v : Nat) : ∀ b ∈ int32ToBytes v, b < 256 := by
  simp [int32ToBytes]
  omega

/-- Dispatching on a sample stream that encodes a well-formed full-quality
payload (16-byte header `magic "FULL" | width | height | originalSize` followed
by the compressed bytes) reaches the full-quality path, recovers every header
field and the exact payload, and hands the payload to the decompressor. -/
theorem dispatchSamples_full (C : Compressor) (w h n : Nat) (payload : List Nat)
    (hw : w < 4294967296) (hh : h < 4294967296) (hn : n < 4294967296)
    (hp : ∀ b ∈ payload, b < 256) :
    dispatchSamples C
      (((int32ToBytes MAGIC_FULL ++ int32ToBytes w ++ int32ToBytes h ++
          int32ToBytes n) ++ payload).map byteToSample) =
      match C.decompress payload with
      | none => Except.error DecodeError.decodeFailure
      | some rawPixelData =>
        if rawPixelData.length ≠ n then Except.error DecodeError.sizeMismatch
        else Except.ok (DecodedImage.raw w h rawPixelData) := by
  set hdr := int32ToBytes MAGIC_FULL ++ int32ToBytes w ++ int32ToBytes h ++
    int32ToBytes n with hdef
  have hdrlen : hdr.length = 16 := by simp [hdef, int32ToBytes]
  have hbs : ∀ b ∈ hdr ++ payload, b < 256 := by
    intro b hb
    rcases List.mem_append.mp hb with hb | hb
    · rw [hdef] at hb
      rcases List.mem_append.mp hb with hb | hb
      rotate_left
      · exact int32ToBytes_lt n b hb
      rcases List.mem_append.mp hb with hb | hb
      rotate_left
      · exact int32ToBytes_lt h b hb
      rcases List.mem_append.mp hb with hb | hb
      · exact int32ToBytes_lt MAGIC_FULL b hb
      · exact int32ToBytes_lt w b hb
    · exact hp b hb
  have hbslen : (hdr ++ payload).length = 16 + payload.length := by
    rw [List.length_append, hdrlen]
  have hsamplen : ((hdr ++ payload).map byteToSample).length = 16 + payload.length := by
    rw [List.length_map, hbslen]
  have htake16 : (hdr ++ payload).take 16 = hdr := by
    rw [show (16 : Nat) = hdr.length from hdrlen.symm, List.take_left]
  have hmagic : readMagic ((hdr ++ payload).map byteToSample) = MAGIC_FULL := by
    unfold readMagic
    rw [headerBytesList_map _ hbs 4 (by omega)]
    rw [hdef, show (int32ToBytes MAGIC_FULL ++ int32ToBytes w ++ int32ToBytes h ++
      int32ToBytes n ++ payload).take 4 = int32ToBytes MAGIC_FULL by
        simp [int32ToBytes]]
    decide
  have hw4 : bytesToInt32 hdr 4 = w := by
    rw [hdef, (bytesToInt32_quad MAGIC_FULL w h n).2.1]
    exact int32_roundtrip w hw
  have hh8 : bytesToInt32 hdr 8 = h := by
    rw [hdef, (bytesToInt32_quad MAGIC_FULL w h n).2.2.1]
    exact int32_roundtrip h hh
  have hn12 : bytesToInt32 hdr 12 = n := by
    rw [hdef, (bytesToInt32_quad MAGIC_FULL w h n).2.2.2]
    exact int32_roundtrip n hn
  have hlen16 : ((hdr ++ payload).map byteToSample).length - 16 = payload.length := by
    rw [hsamplen]
    omega
  have hextract : (List.range payload.length).map
      (fun i => readByte ((hdr ++ payload).map byteToSample) (16 + i)) = payload := by
    rw [extract_map (hdr ++ payload) hbs 16 payload.length (by omega),
      show (16 : Nat) = hdr.length from hdrlen.symm, List.drop_left, List.take_length]
  have hhdr16 : headerBytesList ((hdr ++ payload).map byteToSample) 16 = hdr := by
    rw [headerBytesList_map _ hbs 16 (by omega), htake16]
  have hnotlt : ¬((hdr ++ payload).map byteToSample).length < 16 := by
    rw [hsamplen]
    omega
  simp only [dispatchSamples, decodeFull, hmagic, hhdr16, hw4, hh8, hn12, hlen16,
    hextract, if_true]
  rw [if_neg hnotlt, if_neg (by decide)]

end Sonification

namespace Sonification

/-- C1: for every raw RGBA image, encoding at Full quality (deflate-compress of
raw pixels, each byte carried as one 16-bit PCM sample) and then decoding the
resulting container yields exactly the original raw RGBA bytes and the original
width and height, for any compressor satisfying the spec's lossless round-trip
contract whose output is a byte stream. -/
theorem claim_C1_full_roundtrip (C : Compressor) (w h : Nat) (data : List Nat)
    (hrgba : data.length = w * h * 4)
    (hw : w < 4294967296) (hh : h < 4294967296) (hlen : data.length < 4294967296)
    (hdata : ∀ b ∈ data, b < 256)
    (hcomp : ∀ b ∈ C.compress data, b < 256)
    (hrt : C.decompress (C.compress data) = some data) :
    audioToImage C (imageToAudioFull C w h data).wav =
      Except.ok (DecodedImage.raw w h data) := by
  have hwav : (imageToAudioFull C w h data).wav =
      bytesToWav (C.compress data) (int32ToBytes MAGIC_FULL ++ int32ToBytes w ++
        int32ToBytes h ++ int32ToBytes data.length) := rfl
  have hhdrb : ∀ b ∈ int32ToBytes MAGIC_FULL ++ int32ToBytes w ++
      int32ToBytes h ++ int32ToBytes data.length, b < 256 := by
    intro b hb
    rcases List.mem_append.mp hb with hb | hb
    rotate_left
    · exact int32ToBytes_lt data.length b hb
    rcases List.mem_append.mp hb with hb | hb
    rotate_left
    · exact int32ToBytes_lt h b hb
    rcases List.mem_append.mp hb with hb | hb
    · exact int32ToBytes_lt MAGIC_FULL b hb
    · exact int32ToBytes_lt w b hb
  have hrange : ∀ s ∈ ((int32ToBytes MAGIC_FULL ++ int32ToBytes w ++ int32ToBytes h ++
      int32ToBytes data.length) ++ C.compress data).map byteToSample,
      -32768 ≤ s ∧ s ≤ 32767 := by
    intro s hs
    rcases List.mem_map.mp hs with ⟨b, hb, hbs⟩
    rcases List.mem_append.mp hb with hb | hb
    · exact hbs ▸ byteToSample_bounds b (hhdrb b hb)
    · exact hbs ▸ byteToSample_bounds b (hcomp b hb)
  rw [hwav, audioToImage_bytesToWav C _ _ (by simp [int32ToBytes]; omega),
    bytesToSamples_samplesToBytes _ hrange,
    dispatchSamples_full C w h data.length (C.compress data) hw hh hlen hcomp, hrt]
  simp

/-- Witness for C1 at a concrete 1-by-1 RGBA image. -/
theorem claim_C1_witness :
    audioToImage idCompressor (imageToAudioFull idCompressor 1 1 [10, 20, 30, 40]).wav =
      Except.ok (DecodedImage.raw 1 1 [10, 20, 30, 40]) :=
  claim_C1_full_roundtrip idCompressor 1 1 [10, 20, 30, 40] (by decide) (by decide)
    (by decide) (by decide) (by decide) (by decide) rfl

end Sonification

namespace Sonification

/-- C2: for every byte b in 0..255, `sampleToByte (byteToSample b) = b` exactly,
with `byteToSample b = (b - 128) * 256` and
`sampleToByte s = clamp(round(s / 256) + 128, 0, 255)`. -/
theorem claim_C2_sample_bijection (b : Nat) (hb : b < 256) :
    sampleToByte (byteToSample b) = (b : Int) := by
  unfold sampleToByte byteToSample
  omega

/-- Witness for C2 at the byte 200. -/
theorem claim_C2_witness : sampleToByte (byteToSample 200) = (200 : Int) :=
  claim_C2_sample_bijection 200 (by decide)

/-- C10: for every 16-bit signed sample value, not only exact multiples of 256,
`sampleToByte` is a defined integer in `[0, 255]`, so byte reconstruction from
arbitrary or corrupted sample data never yields an out-of-range byte. -/
theorem claim_C10_sample_range (s : Int) (h1 : -32768 ≤ s) (h2 : s ≤ 32767) :
    0 ≤ sampleToByte s ∧ sampleToByte s ≤ 255 := by
  unfold sampleToByte
  omega

/-- Witness for C10 at the sample -12345 (not a multiple of 256). -/
theorem claim_C10_witness : 0 ≤ sampleToByte (-12345) ∧ sampleToByte (-12345) ≤ 255 :=
  claim_C10_sample_range (-12345) (by decide) (by decide)

/-- C7: every byte buffer whose first 4 bytes are not the container's "RIFF"
tag fails decode with the malformed-container error. -/
theorem claim_C7_reject_malformed (C : Compressor) (buf : List Nat)
    (h4 : 4 ≤ buf.length) (hr : buf.take 4 ≠ riffTag) :
    audioToImage C buf = Except.error DecodeError.malformedContainer := by
  unfold audioToImage
  rw [if_neg (by omega), if_pos hr]

/-- Witness for C7 on a 4-byte zero buffer. -/
theorem claim_C7_witness :
    audioToImage idCompressor [0, 0, 0, 0] = Except.error DecodeError.malformedContainer :=
  claim_C7_reject_malformed idCompressor [0, 0, 0, 0] (by decide) (by decide)

/-- C8: the reported compression ratio equals `originalSize / payload.length`
(raw pixel byte length at Full quality, input file byte size at Compressed),
and the UI surfaces it in the result stats exactly when it exceeds 1, omitting
it otherwise. -/
theorem claim_C8_compression_stats (C : Compressor) (w h fileSize : Nat)
    (raw jpeg : List Nat) (hc : 0 < (C.compress raw).length) (hj : 0 < jpeg.length) :
    (imageToAudioFull C w h raw).compressionFactor =
      (raw.length : ℚ) / ((C.compress raw).length : ℚ) ∧
    (imageToAudioCompressed fileSize jpeg).compressionFactor =
      (fileSize : ℚ) / (jpeg.length : ℚ) ∧
    (∀ r : ℚ, surfacedFactor r = some r ↔ 1 < r) ∧
    (∀ r : ℚ, surfacedFactor r = none ↔ ¬1 < r) := by
  refine ⟨rfl, rfl, ?_, ?_⟩ <;> intro r <;> unfold surfacedFactor <;>
    split_ifs with h1 <;> simp [h1]

/-- Witness for C8: a 4-byte raw image with identity compression has ratio
4/4 = 1 and a ratio of 2 is surfaced. -/
theorem claim_C8_witness :
    (imageToAudioFull idCompressor 1 1 [1, 2, 3, 4]).compressionFactor =
      ((4 : ℚ) / (4 : ℚ)) ∧ surfacedFactor 2 = some 2 := by
  refine ⟨(claim_C8_compression_stats idCompressor 1 1 8 [1, 2, 3, 4] [9]
    (by decide) (by decide)).1, ?_⟩
  exact ((claim_C8_compression_stats idCompressor 1 1 8 [1, 2, 3, 4] [9]
    (by decide) (by decide)).2.2.1 2).mpr (by norm_num)

end Sonification

namespace Sonification

/-- C9: the encoded container declares a data-chunk byte size of
`(header.length + payload.length) * 2` and, when parsed back, exposes exactly
`header.length + payload.length` 16-bit samples. -/
theorem claim_C9_container_structure (data headerBytes : List Nat)
    (h1 : 1 ≤ headerBytes.length + data.length)
    (h2 : (headerBytes.length + data.length) * 2 < 4294967296) :
    bytesToInt32 (bytesToWav data headerBytes) 40 =
      (headerBytes.length + data.length) * 2 ∧
    (sampleStream (bytesToWav data headerBytes)).length =
      headerBytes.length + data.length := by
  constructor
  · have hd : bytesToInt32 (bytesToWav data headerBytes) 40 =
        ((headerBytes.length + data.length) * 2) % 256 +
        256 * ((headerBytes.length + data.length) * 2 / 256 % 256) +
        65536 * ((headerBytes.length + data.length) * 2 / 65536 % 256) +
        16777216 * ((headerBytes.length + data.length) * 2 / 16777216 % 256) := by
      simp [bytesToWav, createWavHeader, int32ToBytes, int16ToBytes, bytesToInt32,
        SAMPLE_RATE, NUM_CHANNELS, BITS_PER_SAMPLE]
    rw [hd]
    omega
  · unfold sampleStream
    rw [findDataOffset_bytesToWav data headerBytes h1,
      show bytesToWav data headerBytes =
        createWavHeader ((headerBytes.length + data.length) * 2) ++
          samplesToBytes ((headerBytes ++ data).map byteToSample) from rfl,
      show (44 : Nat) =
        (createWavHeader ((headerBytes.length + data.length) * 2)).length from
        (createWavHeader_length _).symm,
      List.drop_left, bytesToSamples_length, samplesToBytes_length, List.length_map,
      List.length_append]
    omega

/-- Witness for C9 with a 2-byte header and 1-byte payload. -/
theorem claim_C9_witness :
    bytesToInt32 (bytesToWav [3] [1, 2]) 40 = 6 ∧
      (sampleStream (bytesToWav [3] [1, 2])).length = 3 :=
  claim_C9_container_structure [3] [1, 2] (by decide) (by decide)

/-- Container parsing reduces decode to format dispatch over the extracted
sample stream whenever the RIFF tag is present and the region after the chunk
scan has even byte length. -/
theorem audioToImage_eq_dispatch (C : Compressor) (buf : List Nat)
    (hriff : buf.take 4 = riffTag)
    (heven : (buf.drop (findDataOffset buf)).length % 2 = 0) :
    audioToImage C buf = dispatchSamples C (sampleStream buf) := by
  have h4 : 4 ≤ buf.length := by
    have hl := congrArg List.length hriff
    simp [riffTag] at hl
    omega
  unfold audioToImage sampleStream
  rw [if_neg (by omega), if_neg (by simp [hriff]), if_neg (by simpa using heven)]

end Sonification

namespace Sonification

/-- C3 counterexample: a full-fidelity container declaring width 0 decodes
without any dimension error — the full-quality path performs no dimension
validation (only `handleLegacyFormat` does). -/
theorem claim_C3_counterexample :
    audioToImage idCompressor (imageToAudioFull idCompressor 0 1 [1, 2, 3, 4]).wav =
      Except.ok (DecodedImage.raw 0 1 [1, 2, 3, 4]) := by decide

/-- C3 (amended): legacy headers with width 0, width 32769, or a negative
(as unsigned: at least 2^31) height fail decode with the dimension error, while
the full-fidelity path performs no dimension validation at all: any parseable
full-quality container decodes successfully regardless of the declared
dimensions. -/
theorem claim_C3_dimension_checks (C : Compressor) (buf : List Nat)
    (hriff : buf.take 4 = riffTag)
    (heven : (buf.drop (findDataOffset buf)).length % 2 = 0) :
    (readMagic (sampleStream buf) ≠ MAGIC_JPEG →
      readMagic (sampleStream buf) ≠ MAGIC_FULL →
      (bytesToInt32 (headerBytesList (sampleStream buf) 12) 0 = 0 ∨
        bytesToInt32 (headerBytesList (sampleStream buf) 12) 0 = 32769 ∨
        2147483648 ≤ bytesToInt32 (headerBytesList (sampleStream buf) 12) 4) →
      audioToImage C buf = Except.error DecodeError.invalidDimensions) ∧
    (∀ rawPix : List Nat,
      readMagic (sampleStream buf) = MAGIC_FULL →
      16 ≤ (sampleStream buf).length →
      C.decompress ((List.range ((sampleStream buf).length - 16)).map
        (fun i => readByte (sampleStream buf) (16 + i))) = some rawPix →
      rawPix.length = bytesToInt32 (headerBytesList (sampleStream buf) 16) 12 →
      audioToImage C buf = Except.ok (DecodedImage.raw
        (bytesToInt32 (headerBytesList (sampleStream buf) 16) 4)
        (bytesToInt32 (headerBytesList (sampleStream buf) 16) 8) rawPix)) := by
  constructor
  · intro hnj hnf hdim
    rw [audioToImage_eq_dispatch C buf hriff heven]
    simp only [dispatchSamples, handleLegacyFormat]
    rw [if_neg hnj, if_neg hnf, if_pos (by omega)]
  · intro rawPix hmf h16 hdec hsize
    rw [audioToImage_eq_dispatch C buf hriff heven]
    simp only [dispatchSamples, decodeFull]
    rw [if_neg (by rw [hmf]; decide), if_pos hmf, if_neg (by omega), hdec]
    simp [hsize]

/-- Witness for C3: a hand-built legacy container declaring width 0 fails with
the dimension error, and a full-quality container declaring height 100000
(far out of range) still decodes successfully. -/
theorem claim_C3_witness :
    audioToImage idCompressor (bytesToWav [] (int32ToBytes 0 ++ int32ToBytes 1 ++
      int32ToBytes 4)) = Except.error DecodeError.invalidDimensions ∧
    audioToImage idCompressor (imageToAudioFull idCompressor 5 100000 [1, 2, 3, 4]).wav =
      Except.ok (DecodedImage.raw 5 100000 [1, 2, 3, 4]) :=
  ⟨(claim_C3_dimension_checks idCompressor _ (by decide) (by decide)).1
      (by decide) (by decide) (by decide),
    (claim_C3_dimension_checks idCompressor _ (by decide) (by decide)).2
      [1, 2, 3, 4] (by decide) (by decide) (by decide) (by decide)⟩

end Sonification

namespace Sonification

/-- C4 counterexample: a legacy container whose header declares a 1x1x4 image
but whose sample stream is truncated to the 12 header samples (no pixel
samples at all) decodes successfully to a zero-filled garbage image instead of
failing with a typed error. -/
theorem claim_C4_counterexample :
    audioToImage idCompressor (bytesToWav [] (int32ToBytes 1 ++ int32ToBytes 1 ++
      int32ToBytes 4)) = Except.ok (DecodedImage.raw 1 1 [0, 0, 0, 0]) := by decide

/-- C4 (amended): for a legacy container whose sample stream is truncated but
whose header passes dimension validation, decode does not fail: it returns an
image of the declared size in which every byte read past the end of the sample
stream is 0 (zero-filled), exactly as the source's out-of-range typed-array
reads store 0. -/
theorem claim_C4_truncation_zero_fill (C : Compressor) (buf : List Nat)
    (hriff : buf.take 4 = riffTag)
    (heven : (buf.drop (findDataOffset buf)).length % 2 = 0)
    (hnj : readMagic (sampleStream buf) ≠ MAGIC_JPEG)
    (hnf : readMagic (sampleStream buf) ≠ MAGIC_FULL)
    (hdims : ¬(bytesToInt32 (headerBytesList (sampleStream buf) 12) 0 = 0 ∨
      32768 < bytesToInt32 (headerBytesList (sampleStream buf) 12) 0 ∨
      bytesToInt32 (headerBytesList (sampleStream buf) 12) 4 = 0 ∨
      32768 < bytesToInt32 (headerBytesList (sampleStream buf) 12) 4))
    (htrunc : (sampleStream buf).length < 12 +
      bytesToInt32 (headerBytesList (sampleStream buf) 12) 0 *
        bytesToInt32 (headerBytesList (sampleStream buf) 12) 4 *
        bytesToInt32 (headerBytesList (sampleStream buf) 12) 8) :
    audioToImage C buf = Except.ok (DecodedImage.raw
      (bytesToInt32 (headerBytesList (sampleStream buf) 12) 0)
      (bytesToInt32 (headerBytesList (sampleStream buf) 12) 4)
      ((List.range (bytesToInt32 (headerBytesList (sampleStream buf) 12) 0 *
        bytesToInt32 (headerBytesList (sampleStream buf) 12) 4 *
        bytesToInt32 (headerBytesList (sampleStream buf) 12) 8)).map
        (fun i => readByte (sampleStream buf) (12 + i)))) ∧
    ∀ j, (sampleStream buf).length ≤ j → readByte (sampleStream buf) j = 0 := by
  constructor
  · rw [audioToImage_eq_dispatch C buf hriff heven]
    simp only [dispatchSamples, handleLegacyFormat]
    rw [if_neg hnj, if_neg hnf, if_neg (by omega)]
  · intro j hj
    exact readByte_oob _ j hj

/-- Witness for C4 on the truncated 1x1x4 legacy container: decode succeeds
and the first missing pixel byte reads as 0. -/
theorem claim_C4_witness :
    audioToImage idCompressor (bytesToWav [] (int32ToBytes 1 ++ int32ToBytes 1 ++
      int32ToBytes 4)) = Except.ok (DecodedImage.raw 1 1
        ((List.range 4).map (fun i => readByte (sampleStream (bytesToWav []
          (int32ToBytes 1 ++ int32ToBytes 1 ++ int32ToBytes 4))) (12 + i)))) ∧
    readByte (sampleStream (bytesToWav [] (int32ToBytes 1 ++ int32ToBytes 1 ++
      int32ToBytes 4))) 12 = 0 :=
  ⟨(claim_C4_truncation_zero_fill idCompressor _ (by decide) (by decide) (by decide)
      (by decide) (by decide) (by decide)).1,
    (claim_C4_truncation_zero_fill idCompressor _ (by decide) (by decide) (by decide)
      (by decide) (by decide) (by decide)).2 12 (by decide)⟩

end Sonification

namespace Sonification

/-- Format dispatch never produces the malformed-container error: that error
arises only from the RIFF check at the very start of decode. -/
theorem dispatchSamples_ne_malformed (C : Compressor) (samples : List Int) :
    dispatchSamples C samples ≠ Except.error DecodeError.malformedContainer := by
  simp only [dispatchSamples, decodeJpeg, decodeFull, handleLegacyFormat]
  split_ifs <;> try simp
  cases C.decompress ((List.range (samples.length - 16)).map
      fun i => readByte samples (16 + i)) with
  | none => simp
  | some rawPixelData =>
    dsimp only
    split_ifs <;> simp

/-- C5 counterexample: a RIFF-tagged buffer containing a single "junk" chunk
and no "data" chunk does not fail with any missing-payload or
malformed-container error; the scan silently runs off the end and decode
proceeds, failing only later in the legacy path with the dimension error. -/
theorem claim_C5_counterexample :
    audioToImage idCompressor ([0x52, 0x49, 0x46, 0x46] ++ int32ToBytes 100 ++
        [0x57, 0x41, 0x56, 0x45] ++ [0x6A, 0x75, 0x6E, 0x6B] ++ int32ToBytes 2 ++
        [0, 0]) = Except.error DecodeError.invalidDimensions ∧
    (Except.error DecodeError.invalidDimensions :
        Except DecodeError DecodedImage) ≠
      Except.error DecodeError.malformedContainer := by
  constructor
  · decide
  · decide

/-- C5 (amended): for every input buffer carrying the RIFF tag, decode never
fails with the malformed-container error: the chunk scan has no failure path
when no "data" chunk is found — it stops silently where it exhausted the buffer
and decoding proceeds from that offset (any later failure comes from format
dispatch, not from container parsing). -/
theorem claim_C5_no_missing_chunk_error (C : Compressor) (buf : List Nat)
    (hriff : buf.take 4 = riffTag) :
    audioToImage C buf ≠ Except.error DecodeError.malformedContainer := by
  have h4 : 4 ≤ buf.length := by
    have hl := congrArg List.length hriff
    simp [riffTag] at hl
    omega
  unfold audioToImage
  rw [if_neg (by omega), if_neg (by simp [hriff])]
  dsimp only
  split_ifs with h
  · decide
  · exact dispatchSamples_ne_malformed C _

/-- Witness for C5 on the junk-chunk buffer. -/
theorem claim_C5_witness :
    audioToImage idCompressor ([0x52, 0x49, 0x46, 0x46] ++ int32ToBytes 100 ++
        [0x57, 0x41, 0x56, 0x45] ++ [0x6A, 0x75, 0x6E, 0x6B] ++ int32ToBytes 2 ++
        [0, 0]) ≠ Except.error DecodeError.malformedContainer :=
  claim_C5_no_missing_chunk_error idCompressor _ (by decide)

/-- C6: a full-fidelity container whose embedded compressed payload
decompresses to a byte length different from the header-declared original size
fails decode with the size-mismatch error and returns no image. -/
theorem claim_C6_size_mismatch (C : Compressor) (buf : List Nat) (rawPix : List Nat)
    (hriff : buf.take 4 = riffTag)
    (heven : (buf.drop (findDataOffset buf)).length % 2 = 0)
    (hmf : readMagic (sampleStream buf) = MAGIC_FULL)
    (h16 : 16 ≤ (sampleStream buf).length)
    (hdec : C.decompress ((List.range ((sampleStream buf).length - 16)).map
      (fun i => readByte (sampleStream buf) (16 + i))) = some rawPix)
    (hsize : rawPix.length ≠ bytesToInt32 (headerBytesList (sampleStream buf) 16) 12) :
    audioToImage C buf = Except.error DecodeError.sizeMismatch := by
  rw [audioToImage_eq_dispatch C buf hriff heven]
  simp only [dispatchSamples, decodeFull]
  rw [if_neg (by rw [hmf]; decide), if_pos hmf, if_neg (by omega), hdec]
  simp [hsize]

/-- Witness for C6: a full container declaring original size 5 over a 4-byte
identity-compressed payload fails with the size mismatch. -/
theorem claim_C6_witness :
    audioToImage idCompressor (bytesToWav [1, 2, 3, 4] (int32ToBytes MAGIC_FULL ++
      int32ToBytes 1 ++ int32ToBytes 1 ++ int32ToBytes 5)) =
      Except.error DecodeError.sizeMismatch :=
  claim_C6_size_mismatch idCompressor _ [1, 2, 3, 4] (by decide) (by decide)
    (by decide) (by decide) (by decide) (by decide)

end Sonification
